import Mathlib

/-!
Shallow embedding of the tango-snap7 device core (src/Snap7.py): register
address parsing, value codec, byte-level lock table and the boolean write
path, together with theorems checking the natural-language specification
against this embedding.
-/

namespace TangoSnap7

/-- Error kinds raised by the embedded operations, mirroring the exception
messages of src/Snap7.py and the error names of the specification. -/
inductive Err where
  | invalidRegisterFormat
  | unsupportedArea
  | unsupportedVariableType
  | bitIndexOutOfRange
  | stringTooLong
  | typeMismatch
deriving DecidableEq, Repr

/-- Memory-area enumeration of the specification (DataBlock, Input, Output). -/
inductive MemArea where
  | dataBlock
  | inputArea
  | outputArea
deriving DecidableEq, Repr

/-- Tango variable types dispatched on by src/Snap7.py.  The constructors
devShort and devULong stand for types outside the five supported ones. -/
inductive VariableType where
  | devFloat
  | devDouble
  | devLong
  | devBoolean
  | devString
  | devShort
  | devULong
deriving DecidableEq, Repr

/-- Result of get_register_parts (src/Snap7.py line 234): the dict with keys
area, subarea, offset, suboffset. -/
structure RegisterParts where
  area : String
  subarea : Nat
  offset : Nat
  suboffset : Nat
deriving DecidableEq, Repr

/-- Bases of the contiguous runs of ten Unicode decimal digits (category
Nd, Unicode 14): each run covers the code points base through base plus 9,
carrying the decimal values 0 through 9.  CPython's regex class backslash-d
and its int() accept exactly these characters. -/
def ndBases : List Nat :=
  [48, 1632, 1776, 1984, 2406, 2534, 2662, 2790, 2918, 3046, 3174, 3302, 3430, 3558, 3664, 3792, 3872, 4160, 4240, 6112, 6160, 6470, 6608, 6784, 6800, 6992, 7088, 7232, 7248, 42528, 43216, 43264, 43472, 43504, 43600, 44016, 65296, 66720, 68912, 69734, 69872, 69942, 70096, 70384, 70736, 70864, 71248, 71360, 71472, 71904, 72016, 72784, 73040, 73120, 92768, 92864, 93008, 120782, 120792, 120802, 120812, 120822, 123200, 123632, 125264, 130032]

/-- CPython regex digit class: any Unicode decimal digit (category Nd). -/
def isPyDigit (c : Char) : Bool :=
  ndBases.any (fun b => b ≤ c.toNat && c.toNat ≤ b + 9)

/-- Decimal value of a Unicode decimal digit: its distance to the base of
its run, as Python int() reads it. -/
def pyDigitVal (c : Char) : Nat :=
  match ndBases.find? (fun b => b ≤ c.toNat && c.toNat ≤ b + 9) with
  | some b => c.toNat - b
  | none => 0

/-- Python int() on a string of Unicode decimal digits, as used on the
regex groups. -/
def pyDigitsToNat (ds : List Char) : Nat :=
  ds.foldl (fun acc c => 10 * acc + pyDigitVal c) 0

/-- CPython end anchor: the dollar matches at the end of the string or
just before a newline at the end of the string, so the rest left after
the groups must be empty or a single newline. -/
def endAnchor (l : List Char) : Bool :=
  l.isEmpty || decide (l = ['\n'])

/-- get_register_parts (src/Snap7.py lines 219-234): match the register
against the regex ([A-Za-z]+)(0-9*).(0-9+)(.(0-9+))? anchored at the start
and ending in the dollar anchor, with subarea and suboffset defaulting
to 0; no match raises.  The regex is embedded with CPython semantics: the
digit class is any Unicode decimal digit (isPyDigit), int() reads digits
at their decimal values (pyDigitsToNat), and the dollar anchor also
matches just before a single trailing newline (endAnchor); the character
classes are embedded as the equivalent maximal-munch split of the
character list. -/
def get_register_parts (register : String) : Except Err RegisterParts :=
  let cs := register.data
  let letters := cs.takeWhile Char.isAlpha
  let r1 := cs.dropWhile Char.isAlpha
  if letters.isEmpty then .error .invalidRegisterFormat else
  let subs := r1.takeWhile isPyDigit
  let r2 := r1.dropWhile isPyDigit
  match r2 with
  | '.' :: r3 =>
    let offs := r3.takeWhile isPyDigit
    let r4 := r3.dropWhile isPyDigit
    if offs.isEmpty then .error .invalidRegisterFormat else
    match r4 with
    | '.' :: r5 =>
      let qs := r5.takeWhile isPyDigit
      let r6 := r5.dropWhile isPyDigit
      if qs.isEmpty || !endAnchor r6 then .error .invalidRegisterFormat
      else .ok ⟨⟨letters⟩, pyDigitsToNat subs, pyDigitsToNat offs, pyDigitsToNat qs⟩
    | other =>
      if endAnchor other then .ok ⟨⟨letters⟩, pyDigitsToNat subs, pyDigitsToNat offs, 0⟩
      else .error .invalidRegisterFormat
  | _ => .error .invalidRegisterFormat

/-- Area dispatch of read_data_from_area_offset_size and
write_data_to_area_offset_size (src/Snap7.py lines 150-159 and 161-170):
the exact comparisons against "DB", "E", "I", "A", "Q"; any other area
string raises the unsupported-area exception. -/
def read_area_kind (area : String) : Except Err MemArea :=
  if area = "DB" then .ok .dataBlock
  else if area = "E" ∨ area = "I" then .ok .inputArea
  else if area = "A" ∨ area = "Q" then .ok .outputArea
  else .error .unsupportedArea

/-- Big-endian byte split of a 32-bit word (the byte layout produced by
struct packing with network byte order). -/
def u32Bytes (n : Nat) : List Nat :=
  [n / 16777216 % 256, n / 65536 % 256, n / 256 % 256, n % 256]

/-- Big-endian reassembly of a 32-bit word from four bytes of data at
the given offset. -/
def u32Read (data : List Nat) (offset : Nat) : Nat :=
  data.getD offset 0 * 16777216 + data.getD (offset + 1) 0 * 65536 +
    data.getD (offset + 2) 0 * 256 + data.getD (offset + 3) 0

/-- Big-endian byte split of a 64-bit word. -/
def u64Bytes (n : Nat) : List Nat :=
  [n / 72057594037927936 % 256, n / 281474976710656 % 256,
   n / 1099511627776 % 256, n / 4294967296 % 256,
   n / 16777216 % 256, n / 65536 % 256, n / 256 % 256, n % 256]

/-- Big-endian reassembly of a 64-bit word from eight bytes of data at
the given offset. -/
def u64Read (data : List Nat) (offset : Nat) : Nat :=
  data.getD offset 0 * 72057594037927936 + data.getD (offset + 1) 0 * 281474976710656 +
    data.getD (offset + 2) 0 * 1099511627776 + data.getD (offset + 3) 0 * 4294967296 +
    data.getD (offset + 4) 0 * 16777216 + data.getD (offset + 5) 0 * 65536 +
    data.getD (offset + 6) 0 * 256 + data.getD (offset + 7) 0

/-- Modelled from the spec: snap7.util.set_real is not in src/; per spec
section 4.2 it packs an IEEE-754 single-precision value, represented here
by its 32-bit pattern (the representable values), as 4 big-endian bytes. -/
def set_real (bits : Nat) : List Nat := u32Bytes bits

/-- Modelled from the spec: snap7.util.get_real is not in src/; it reads
4 big-endian bytes at the offset back into the 32-bit pattern. -/
def get_real (data : List Nat) (offset : Nat) : Nat := u32Read data offset

/-- Modelled from the spec: snap7.util.set_lreal is not in src/; per spec
section 4.2 it packs an IEEE-754 double-precision value, represented here
by its 64-bit pattern, as 8 big-endian bytes. -/
def set_lreal (bits : Nat) : List Nat := u64Bytes bits

/-- Modelled from the spec: snap7.util.get_lreal is not in src/; it reads
8 big-endian bytes at the offset back into the 64-bit pattern. -/
def get_lreal (data : List Nat) (offset : Nat) : Nat := u64Read data offset

/-- Modelled from the spec: snap7.util.set_dint is not in src/; per spec
section 4.2 it packs a 32-bit signed integer as 4 bytes, two's-complement,
big-endian. -/
def set_dint (v : Int) : List Nat := u32Bytes (v % 4294967296).toNat

/-- Modelled from the spec: snap7.util.get_dint is not in src/; it reads
4 big-endian bytes as a two's-complement signed 32-bit integer. -/
def get_dint (data : List Nat) (offset : Nat) : Int :=
  let n := u32Read data offset
  if n < 2147483648 then (n : Int) else (n : Int) - 4294967296

/-- Modelled from the spec: snap7.util.set_bool is not in src/; per spec
sections 4.2-4.3 it sets or clears the bit bitIndex of the byte at
byteIndex, and a bit index outside 0..7 fails with BitIndexOutOfRange. -/
def set_bool (data : List Nat) (byteIndex : Nat) (bitIndex : Int) (value : Bool) :
    Except Err (List Nat) :=
  if 0 ≤ bitIndex ∧ bitIndex < 8 then
    let b := bitIndex.toNat
    let cur := data.getD byteIndex 0
    let new := if value then cur ||| 2 ^ b else cur &&& (255 ^^^ 2 ^ b)
    .ok (data.set byteIndex new)
  else .error .bitIndexOutOfRange

/-- Modelled from the spec: snap7.util.get_bool is not in src/; per spec
section 4.2 it reads the bit bitIndex of the byte at byteIndex, and a bit
index outside 0..7 fails with BitIndexOutOfRange. -/
def get_bool (data : List Nat) (byteIndex : Nat) (bitIndex : Int) : Except Err Bool :=
  if 0 ≤ bitIndex ∧ bitIndex < 8 then
    .ok ((data.getD byteIndex 0).testBit bitIndex.toNat)
  else .error .bitIndexOutOfRange

/-- Modelled from the spec: snap7.util.set_string is not in src/; per spec
section 4.2 the string value (represented here by its UTF-8 payload bytes)
is laid out as header byte 0 holding the declared maximum, header byte 1
holding the actual UTF-8 byte length, then the payload zero-padded to the
declared maximum; a payload longer than the declared maximum fails with
StringTooLong. -/
def set_string (payload : List Nat) (maxSize : Nat) : Except Err (List Nat) :=
  if maxSize < payload.length then .error .stringTooLong
  else .ok (maxSize :: payload.length ::
    (payload ++ List.replicate (maxSize - payload.length) 0))

/-- Modelled from the spec: snap7.util.get_string is not in src/; per spec
section 4.2 it reads the actual-length header byte and then exactly that
many payload bytes after the two header bytes. -/
def get_string (data : List Nat) (offset : Nat) : List Nat :=
  (data.drop (offset + 2)).take (data.getD (offset + 1) 0)

/-- Typed values flowing through the codec.  Float values are represented
by their IEEE-754 bit patterns, strings by their UTF-8 payload bytes. -/
inductive PlcValue where
  | real (bits : Nat)
  | lreal (bits : Nat)
  | dint (v : Int)
  | bool (b : Bool)
  | str (payload : List Nat)
deriving DecidableEq, Repr

/-- bytes_per_variable_type (src/Snap7.py lines 186-196): fixed widths for
float, double, long and boolean, the customLength argument itself for
string, and no result at all (Python returns None) for any other type. -/
def bytes_per_variable_type (variableType : VariableType) (customLength : Nat) :
    Option Nat :=
  match variableType with
  | .devFloat => some 4
  | .devDouble => some 8
  | .devLong => some 4
  | .devBoolean => some 1
  | .devString => some customLength
  | _ => none

/-- variable_to_bytedata (src/Snap7.py lines 198-217): dispatch on the
variable type, writing the value into a fresh buffer via the snap7.util
setters; for strings the declared maximum is the suboffset qualifier, with
0 defaulting to 254; a value of the wrong shape for the type is rejected,
as the Python setters raise on wrong-typed input. -/
def variable_to_bytedata (value : PlcValue) (variableType : VariableType)
    (suboffset : Int) : Except Err (List Nat) :=
  match variableType, value with
  | .devFloat, .real bits => .ok (set_real bits)
  | .devDouble, .lreal bits => .ok (set_lreal bits)
  | .devLong, .dint v => .ok (set_dint v)
  | .devBoolean, .bool b => set_bool [0] 0 suboffset b
  | .devString, .str payload =>
      let customLength : Nat := if suboffset = 0 then 254 else suboffset.toNat
      set_string payload customLength
  | _, _ => .error .typeMismatch

/-- bytedata_to_variable (src/Snap7.py lines 172-184): dispatch on the
variable type, decoding via the snap7.util getters; an unknown type
raises the unsupported-variable-type exception. -/
def bytedata_to_variable (data : List Nat) (variableType : VariableType)
    (offset : Nat) (suboffset : Int) : Except Err PlcValue :=
  match variableType with
  | .devFloat => .ok (.real (get_real data offset))
  | .devDouble => .ok (.lreal (get_lreal data offset))
  | .devLong => .ok (.dint (get_dint data offset))
  | .devBoolean => (get_bool data offset suboffset).map .bool
  | .devString => .ok (.str (get_string data offset))
  | _ => .error .unsupportedVariableType

/-- Python values arriving at write_dynamic_attr from the framework. -/
inductive PyValue where
  | pyBool (b : Bool)
  | pyInt (n : Int)
  | pyStr (s : String)
deriving DecidableEq, Repr

/-- Python str() of a write value: True/False for booleans, the decimal
digits for integers, the string itself for strings. -/
def pyStr : PyValue → String
  | .pyBool true => "True"
  | .pyBool false => "False"
  | .pyInt n => toString n
  | .pyStr s => s

/-- write_dynamic_attr (src/Snap7.py line 253) stores
str(attr.get_write_value()) as the attribute value. -/
def write_dynamic_attr_stored (v : PyValue) : String := pyStr v

/-- Boolean coercion performed by write_boolean_bit on the stored string
(src/Snap7.py lines 271-272 and the bool(value) call at line 283): only
the exact string "False" is replaced by Python False; bool() of any other
string is its nonemptiness. -/
def write_boolean_bit_value (value : String) : Bool :=
  if value = "False" then false else !value.isEmpty

/-- Key under which write_boolean_bit stores the per-byte lock
(src/Snap7.py line 277): the byte offset alone. -/
def bit_byte_lock_key (parts : RegisterParts) : Nat := parts.offset

/-- write_boolean_bit data path (src/Snap7.py lines 281-284) over a memory
area modelled as a map from offset to byte: read one byte at the offset,
merge the bit via set_bool, write the byte back. -/
def write_boolean_bit (mem : Nat → Nat) (offset : Nat) (bitIndex : Int)
    (value : Bool) : Except Err (Nat → Nat) :=
  (set_bool [mem offset] 0 bitIndex value).map
    (fun d => fun o => if o = offset then d.getD 0 0 else mem o)

/-- Composition of write_dynamic_attr and publish for a boolean attribute
(src/Snap7.py lines 252-265): the stored stringified value is handed to
write_boolean_bit, which coerces it to a bit. -/
def dynamic_attr_bit_write (mem : Nat → Nat) (parts : RegisterParts)
    (v : PyValue) : Except Err (Nat → Nat) :=
  write_boolean_bit mem parts.offset (parts.suboffset : Int)
    (write_boolean_bit_value (write_dynamic_attr_stored v))

/-- Events of the lock-table creation protocol in write_boolean_bit
(src/Snap7.py lines 277-280): a thread first tests membership of its
offset outside the creation lock, then, if the test saw the key absent,
inserts a fresh lock object while holding the creation lock. -/
inductive LockEv where
  | testAbsent (tid offset : Nat)
  | insertLock (tid offset : Nat)
deriving DecidableEq, Repr

/-- Offset an event targets. -/
def LockEv.offset : LockEv → Nat
  | .testAbsent _ o => o
  | .insertLock _ o => o

/-- State of the lock table: the dict from offset to lock object (identified
by a creation counter, later inserts shadowing earlier ones the way dict
assignment overwrites), the list of lock objects ever created, the creation
counter, and each thread's last membership-test result. -/
structure LockTableState where
  table : List (Nat × Nat)
  creations : List (Nat × Nat)
  nextId : Nat
  sawAbsent : List (Nat × Bool)
deriving DecidableEq, Repr

/-- Latest membership-test result recorded for a thread. -/
def lookupFlag (l : List (Nat × Bool)) (tid : Nat) : Bool :=
  ((l.find? (fun p => p.1 = tid)).map Prod.snd).getD false

/-- One atomic step of the creation protocol: the membership test (done
outside the creation lock), or the unconditional insert of a fresh lock
done under the creation lock by a thread whose test saw the key absent
(the code performs no second test under the lock). -/
def lockStep (s : LockTableState) (e : LockEv) : LockTableState :=
  match e with
  | .testAbsent tid offset =>
      { s with sawAbsent :=
          (tid, ((s.table.find? (fun p => p.1 = offset)).isNone : Bool)) :: s.sawAbsent }
  | .insertLock tid offset =>
      if lookupFlag s.sawAbsent tid then
        { table := (offset, s.nextId) :: s.table,
          creations := s.creations ++ [(offset, s.nextId)],
          nextId := s.nextId + 1,
          sawAbsent := s.sawAbsent }
      else s

/-- Run of the creation protocol from the empty table under a given
interleaving of thread steps. -/
def lockRun (evs : List LockEv) : LockTableState :=
  evs.foldl lockStep ⟨[], [], 0, []⟩

/-- Tail contributed by the optional qualifier group of the register
grammar. -/
def qualTail : Option (List Char) → List Char
  | none => []
  | some qs => '.' :: qs

/-- Tail contributed by the optional qualifier group of the source regex,
followed by whatever rest the CPython dollar anchor then accepts. -/
def pyQualTail (q : Option (List Char)) (t : List Char) : List Char :=
  match q with
  | none => t
  | some qs => '.' :: (qs ++ t)

/-- Qualifier value: 0 when the group is absent. -/
def pyQualVal : Option (List Char) → Nat
  | none => 0
  | some qs => pyDigitsToNat qs

/-- The register grammar as the specification words it, section 4.1: one
or more letters, optional sub-area digits, a dot, mandatory offset digits,
and an optional dot-plus-qualifier-digits group, covering the whole
string.  This is the spec-side definition kept for comparison with the
source regex; the digit groups are the ordinary ASCII digits. -/
def GrammarMatch (s : String) : Prop :=
  ∃ (ls ds offs : List Char) (q : Option (List Char)),
    ls ≠ [] ∧ (∀ c ∈ ls, c.isAlpha = true) ∧ (∀ c ∈ ds, c.isDigit = true) ∧
    offs ≠ [] ∧ (∀ c ∈ offs, c.isDigit = true) ∧
    (∀ qs, q = some qs → qs ≠ [] ∧ ∀ c ∈ qs, c.isDigit = true) ∧
    s.data = ls ++ ds ++ '.' :: (offs ++ qualTail q)

/-- The register strings the source regex actually accepts: letters, an
optional Unicode-digit sub-area group, a dot, mandatory Unicode offset
digits, an optional dot-plus-qualifier-digits group, and then nothing or
a single trailing newline (CPython dollar-anchor semantics). -/
def PyGrammarMatch (s : String) : Prop :=
  ∃ (ls ds offs : List Char) (q : Option (List Char)) (t : List Char),
    ls ≠ [] ∧ (∀ c ∈ ls, c.isAlpha = true) ∧ (∀ c ∈ ds, isPyDigit c = true) ∧
    offs ≠ [] ∧ (∀ c ∈ offs, isPyDigit c = true) ∧
    (∀ qs, q = some qs → qs ≠ [] ∧ ∀ c ∈ qs, isPyDigit c = true) ∧
    endAnchor t = true ∧
    s.data = ls ++ ds ++ '.' :: (offs ++ pyQualTail q t)

theorem isAlpha_toNat {c : Char} (h : c.isAlpha = true) :
    65 ≤ c.toNat ∧ c.toNat ≤ 122 := by
  simp only [Char.isAlpha, Char.isUpper, Char.isLower, Bool.or_eq_true,
    Bool.and_eq_true, decide_eq_true_eq, UInt32.le_def, BitVec.le_def] at h
  have e65 : (UInt32.toBitVec 65).toNat = 65 := rfl
  have e90 : (UInt32.toBitVec 90).toNat = 90 := rfl
  have e97 : (UInt32.toBitVec 97).toNat = 97 := rfl
  have e122 : (UInt32.toBitVec 122).toNat = 122 := rfl
  have hc : c.toNat = c.val.toBitVec.toNat := rfl
  omega

theorem isPyDigit_not_isAlpha {c : Char} (h : isPyDigit c = true) :
    c.isAlpha = false := by
  rw [isPyDigit, List.any_eq_true] at h
  obtain ⟨b, hb, hbc⟩ := h
  rw [Bool.and_eq_true, decide_eq_true_eq, decide_eq_true_eq] at hbc
  have hbase : ∀ x ∈ ndBases, x = 48 ∨ 1632 ≤ x := by decide
  cases hA : c.isAlpha with
  | false => rfl
  | true =>
    obtain ⟨h1, h2⟩ := isAlpha_toNat hA
    rcases hbase b hb with rfl | hge
    · omega
    · omega

theorem endAnchor_cases {t : List Char} (h : endAnchor t = true) :
    t = [] ∨ t = ['\n'] := by
  rw [endAnchor, Bool.or_eq_true, decide_eq_true_eq] at h
  rcases h with h | h
  · exact Or.inl (by
      cases t with
      | nil => rfl
      | cons a t2 => exact absurd h (by simp))
  · exact Or.inr h

theorem grammar_last_digit (s : String) (hg : GrammarMatch s) :
    ∃ c, s.data.getLast? = some c ∧ c.isDigit = true := by
  obtain ⟨ls, ds, offs, q, hls, hlsA, hds, hoffs, hoffsD, hq, hdec⟩ := hg
  have hlast : ∀ (l : List Char), l ≠ [] → (∀ c ∈ l, c.isDigit = true) →
      ∃ c, l.getLast? = some c ∧ c.isDigit = true := by
    intro l hne hall
    exact ⟨l.getLast hne, List.getLast?_eq_getLast l hne,
      hall _ (List.getLast_mem hne)⟩
  rw [hdec]
  cases q with
  | none =>
    obtain ⟨c, hc, hd⟩ := hlast offs hoffs hoffsD
    refine ⟨c, ?_, hd⟩
    simp [qualTail, List.getLast?_append, List.getLast?_cons, hc]
  | some qs =>
    obtain ⟨hqsne, hqsD⟩ := hq qs rfl
    obtain ⟨c, hc, hd⟩ := hlast qs hqsne hqsD
    refine ⟨c, ?_, hd⟩
    simp [qualTail, List.getLast?_append, List.getLast?_cons, hc]


theorem takeWhile_append_all {p : Char → Bool} (l1 l2 : List Char)
    (h1 : ∀ c ∈ l1, p c = true)
    (h2 : ∀ c, l2.head? = some c → p c = false) :
    (l1 ++ l2).takeWhile p = l1 ∧ (l1 ++ l2).dropWhile p = l2 := by
  induction l1 with
  | nil =>
    simp only [List.nil_append]
    cases l2 with
    | nil => exact ⟨rfl, rfl⟩
    | cons a t =>
      have ha := h2 a rfl
      exact ⟨by simp [List.takeWhile_cons, ha], by simp [List.dropWhile_cons, ha]⟩
  | cons a t ih =>
    have pa : p a = true := h1 a (by simp)
    obtain ⟨ht, hd⟩ := ih (fun c hc => h1 c (by simp [hc]))
    exact ⟨by simp [List.takeWhile_cons, pa, ht], by simp [List.dropWhile_cons, pa, hd]⟩

theorem u32Read_u32Bytes (n : Nat) (h : n < 4294967296) :
    u32Read (u32Bytes n) 0 = n := by
  simp only [u32Bytes, u32Read, List.getD, List.get?_cons_zero, List.get?_cons_succ,
    Option.getD_some]
  omega

theorem u64Read_u64Bytes (n : Nat) (h : n < 18446744073709551616) :
    u64Read (u64Bytes n) 0 = n := by
  simp only [u64Bytes, u64Read, List.getD, List.get?_cons_zero, List.get?_cons_succ,
    Option.getD_some]
  omega

theorem merge_testBit (cur b j : Nat) (v : Bool) (hb : b < 8) (hj : j < 8) :
    (if v then cur ||| 2 ^ b else cur &&& (255 ^^^ 2 ^ b)).testBit j =
      if j = b then v else cur.testBit j := by
  have h255 : ∀ i, i < 8 → Nat.testBit 255 i = true := by decide
  rcases eq_or_ne j b with h | h
  · subst h
    cases v
    · simp [Nat.testBit_and, Nat.testBit_xor, h255 j hj, Nat.testBit_two_pow_self]
    · simp [Nat.testBit_or, Nat.testBit_two_pow_self]
  · cases v
    · simp [Nat.testBit_and, Nat.testBit_xor, h255 j hj,
        Nat.testBit_two_pow_of_ne (Ne.symm h), h]
    · simp [Nat.testBit_or, Nat.testBit_two_pow_of_ne (Ne.symm h), h]

theorem write_boolean_bit_ok (mem : Nat → Nat) (offset : Nat) (i : Int) (v : Bool)
    (h0 : 0 ≤ i) (h8 : i < 8) :
    write_boolean_bit mem offset i v =
      .ok (fun o => if o = offset then
            (if v then mem offset ||| 2 ^ i.toNat
             else mem offset &&& (255 ^^^ 2 ^ i.toNat)) else mem o) := by
  simp only [write_boolean_bit, set_bool, if_pos (And.intro h0 h8)]
  simp [Except.map, List.set]

/-- C1: the specification says boolean-value normalization for a write maps
native booleans to themselves, non-zero numbers to true and zero to false,
the case-insensitive strings true/1/yes to true and false/0/no and the
empty string to false.  The write path of the code instead stringifies the
value and special-cases only the exact string "False" before Python
truthiness applies, so the stringified inputs "false", "0", "no" — and the
numeric 0, stringified to "0" — all produce a true bit value. -/
theorem C1_write_normalization_divergence :
    write_boolean_bit_value (write_dynamic_attr_stored (.pyStr "false")) = true ∧
    write_boolean_bit_value (write_dynamic_attr_stored (.pyStr "0")) = true ∧
    write_boolean_bit_value (write_dynamic_attr_stored (.pyStr "no")) = true ∧
    write_boolean_bit_value (write_dynamic_attr_stored (.pyInt 0)) = true ∧
    write_boolean_bit_value (write_dynamic_attr_stored (.pyBool false)) = false ∧
    write_boolean_bit_value (write_dynamic_attr_stored (.pyBool true)) = true ∧
    write_boolean_bit_value (write_dynamic_attr_stored (.pyStr "")) = false := by
  exact ⟨rfl, rfl, rfl, rfl, rfl, rfl, rfl⟩

/-- C10: every write to a dynamic attribute stores and forwards str(value):
the bit writer receives the stringified value, only the exact string
"False" is mapped to false before string truthiness applies, and any other
non-empty string — including "0" — is a true bit value. -/
theorem C10_write_path_stringification :
    (∀ (v : PyValue) (mem : Nat → Nat) (parts : RegisterParts) (mem2 : Nat → Nat),
      parts.suboffset < 8 →
      dynamic_attr_bit_write mem parts v = .ok mem2 →
      (mem2 parts.offset).testBit parts.suboffset =
        write_boolean_bit_value (pyStr v)) ∧
    (∀ b : Bool, write_dynamic_attr_stored (.pyBool b) = if b then "True" else "False") ∧
    (∀ n : Int, write_dynamic_attr_stored (.pyInt n) = toString n) ∧
    (∀ s : String, write_dynamic_attr_stored (.pyStr s) = s) ∧
    write_boolean_bit_value "False" = false ∧
    (∀ s : String, s ≠ "False" → s ≠ "" → write_boolean_bit_value s = true) ∧
    write_boolean_bit_value "0" = true ∧
    write_boolean_bit_value "" = false := by
  refine ⟨?_, ?_, fun _ => rfl, fun _ => rfl, rfl, ?_, rfl, rfl⟩
  · intro v mem parts mem2 h8 hw
    rw [dynamic_attr_bit_write, write_boolean_bit_ok mem parts.offset
      (parts.suboffset : Int) _ (by omega) (by exact_mod_cast h8)] at hw
    cases hw
    simp only [if_pos rfl, if_true, Int.toNat_ofNat]
    rw [merge_testBit _ _ _ _ h8 h8, if_pos rfl]
    rfl
  · intro b
    cases b <;> rfl
  · intro s h1 h2
    have hE : s.isEmpty = false := by
      cases hEq : s.isEmpty
      · rfl
      · exact absurd ((String.isEmpty_iff s).mp hEq) h2
    simp [write_boolean_bit_value, h1, hE]

/-- Witness for C10 at concrete inputs: writing the Python integer 0 to a
boolean attribute at bit 2 of offset 4 sets the bit to true. -/
theorem C10_write_path_stringification_witness :
    (fun mem2 => (mem2 4).testBit 2 = write_boolean_bit_value (pyStr (.pyInt 0)))
      (fun o => if o = 4 then (if true then (fun _ => 0) 4 ||| 2 ^ (2 : Int).toNat
          else (fun _ => 0) 4 &&& (255 ^^^ 2 ^ (2 : Int).toNat)) else (fun _ : Nat => 0) o) ∧
    write_boolean_bit_value "x" = true := by
  constructor
  · exact C10_write_path_stringification.1 (.pyInt 0) (fun _ => 0) ⟨"DB", 1, 4, 2⟩ _
      (by decide) (write_boolean_bit_ok (fun _ => 0) 4 2 true (by decide) (by decide))
  · exact C10_write_path_stringification.2.2.2.2.2.1 "x" (by decide) (by decide)

/-- C5 counterexample: the claim says the area-letter prefix is interpreted
case-insensitively, so the register "db1.0" should select DataBlock; the
code parses it with area letters "db" and the area dispatch then fails
with UnsupportedArea, while the upper-case "DB" succeeds. -/
theorem C5_area_case_counterexample :
    get_register_parts "db1.0" = .ok ⟨"db", 1, 0, 0⟩ ∧
    read_area_kind "db" = .error .unsupportedArea ∧
    read_area_kind "DB" = .ok .dataBlock := ⟨rfl, rfl, rfl⟩

/-- C5 amended: the area-letter prefix is interpreted case-sensitively:
exactly "DB" maps to DataBlock, "E" or "I" to Input, "A" or "Q" to Output,
and every other letter sequence (lower-case variants included) fails with
UnsupportedArea. -/
theorem C5_area_mapping_case_sensitive :
    read_area_kind "DB" = .ok .dataBlock ∧
    read_area_kind "E" = .ok .inputArea ∧
    read_area_kind "I" = .ok .inputArea ∧
    read_area_kind "A" = .ok .outputArea ∧
    read_area_kind "Q" = .ok .outputArea ∧
    (∀ s : String, s ≠ "DB" → s ≠ "E" → s ≠ "I" → s ≠ "A" → s ≠ "Q" →
      read_area_kind s = .error .unsupportedArea) := by
  refine ⟨rfl, rfl, rfl, rfl, rfl, ?_⟩
  intro s h1 h2 h3 h4 h5
  simp [read_area_kind, h1, h2, h3, h4, h5]

/-- Witness for C5 at a concrete input: the lower-case area "e" is
rejected with UnsupportedArea. -/
theorem C5_area_mapping_case_sensitive_witness :
    read_area_kind "e" = .error .unsupportedArea :=
  C5_area_mapping_case_sensitive.2.2.2.2.2 "e"
    (by decide) (by decide) (by decide) (by decide) (by decide)

/-- C8 counterexample: the claim says the byte-width lookup returns
declaredStringLength + 2 for String and fails with UnsupportedVariableType
for other types; the code returns the declared length argument unchanged
(10, not 12) and silently returns no width (Python None) for DevShort. -/
theorem C8_width_lookup_counterexample :
    bytes_per_variable_type .devString 10 = some 10 ∧
    bytes_per_variable_type .devString 10 ≠ some 12 ∧
    bytes_per_variable_type .devShort 0 = none := by decide

/-- C8 amended: the byte-width lookup returns 4 for Float32, 8 for Float64,
4 for Int32, 1 for Boolean, and the declared-length argument itself for
String (the callers add the 2 header bytes before calling); for every type
outside these five it returns no width at all instead of raising. -/
theorem C8_width_lookup :
    (∀ L, bytes_per_variable_type .devFloat L = some 4) ∧
    (∀ L, bytes_per_variable_type .devDouble L = some 8) ∧
    (∀ L, bytes_per_variable_type .devLong L = some 4) ∧
    (∀ L, bytes_per_variable_type .devBoolean L = some 1) ∧
    (∀ L, bytes_per_variable_type .devString L = some L) ∧
    (∀ (t : VariableType) (L : Nat),
      t ≠ .devFloat → t ≠ .devDouble → t ≠ .devLong → t ≠ .devBoolean →
      t ≠ .devString → bytes_per_variable_type t L = none) := by
  refine ⟨fun _ => rfl, fun _ => rfl, fun _ => rfl, fun _ => rfl, fun _ => rfl, ?_⟩
  intro t L h1 h2 h3 h4 h5
  cases t <;> simp_all [bytes_per_variable_type]

/-- Witness for C8 at concrete inputs: DevShort and DevULong get no width. -/
theorem C8_width_lookup_witness :
    bytes_per_variable_type .devShort 3 = none ∧
    bytes_per_variable_type .devULong 0 = none :=
  ⟨C8_width_lookup.2.2.2.2.2 .devShort 3 (by decide) (by decide) (by decide)
      (by decide) (by decide),
   C8_width_lookup.2.2.2.2.2 .devULong 0 (by decide) (by decide) (by decide)
      (by decide) (by decide)⟩

/-- C4: a single-bit write reads the byte at the offset, changes only the
addressed bit and writes the byte back: every other bit of that byte and
every other offset keep their values, the addressed bit gets the written
value, and after bits 0, 1, 2 are all set (byte 7), writing bit 1 to false
leaves bits 0 and 2 set and bit 1 clear (byte 5). -/
theorem C4_bit_write_preserves_siblings :
    (∀ (mem : Nat → Nat) (offset b : Nat) (v : Bool) (mem2 : Nat → Nat),
      b < 8 →
      write_boolean_bit mem offset (b : Int) v = .ok mem2 →
      ((∀ j, j < 8 → j ≠ b → (mem2 offset).testBit j = (mem offset).testBit j) ∧
       (mem2 offset).testBit b = v ∧
       (∀ o, o ≠ offset → mem2 o = mem o))) ∧
    (∀ (mem : Nat → Nat) (offset : Nat) (mem2 : Nat → Nat),
      mem offset = 7 →
      write_boolean_bit mem offset 1 false = .ok mem2 →
      (mem2 offset = 5 ∧ (mem2 offset).testBit 0 = true ∧
       (mem2 offset).testBit 1 = false ∧ (mem2 offset).testBit 2 = true)) := by
  constructor
  · intro mem offset b v mem2 hb hw
    rw [write_boolean_bit_ok mem offset (b : Int) v (by omega) (by exact_mod_cast hb)] at hw
    cases hw
    simp only [if_pos rfl, if_true, Int.toNat_ofNat]
    refine ⟨?_, ?_, ?_⟩
    · intro j hj hjb
      rw [merge_testBit _ _ _ _ hb hj, if_neg hjb]
    · rw [merge_testBit _ _ _ _ hb hb, if_pos rfl]
    · intro o ho
      simp [ho]
  · intro mem offset mem2 h7 hw
    rw [write_boolean_bit_ok mem offset 1 false (by decide) (by decide)] at hw
    cases hw
    simp only [if_pos rfl, if_true, h7]
    refine ⟨rfl, rfl, rfl, rfl⟩

/-- Witness for C4 at a concrete input: with every byte initially 7,
writing bit 1 of offset 0 to false yields byte 5 there. -/
theorem C4_bit_write_preserves_siblings_witness :
    (fun mem2 : Nat → Nat => mem2 0 = 5 ∧ (mem2 0).testBit 0 = true ∧
        (mem2 0).testBit 1 = false ∧ (mem2 0).testBit 2 = true)
      (fun o => if o = 0 then
          (if false then (fun _ => 7) 0 ||| 2 ^ (1 : Int).toNat
           else (fun _ => 7) 0 &&& (255 ^^^ 2 ^ (1 : Int).toNat)) else (fun _ : Nat => 7) o) :=
  C4_bit_write_preserves_siblings.2 (fun _ => 7) 0 _ rfl
    (write_boolean_bit_ok (fun _ => 7) 0 1 false (by decide) (by decide))

/-- C6: for every string value (as UTF-8 payload bytes) and declared
maximum payload length L taken from the qualifier (254 when the qualifier
is 0), encoding fails with StringTooLong exactly when the payload length
exceeds L, and encoding a payload of exactly length L succeeds. -/
theorem C6_string_length_check :
    (∀ (payload : List Nat) (L : Nat), 0 < L →
      (variable_to_bytedata (.str payload) .devString (L : Int) =
          .error .stringTooLong ↔ L < payload.length)) ∧
    (∀ payload : List Nat,
      (variable_to_bytedata (.str payload) .devString 0 =
          .error .stringTooLong ↔ 254 < payload.length)) ∧
    (∀ (payload : List Nat) (L : Nat), 0 < L → payload.length = L →
      ∃ d, variable_to_bytedata (.str payload) .devString (L : Int) = .ok d) ∧
    (∀ payload : List Nat, payload.length = 254 →
      ∃ d, variable_to_bytedata (.str payload) .devString 0 = .ok d) := by
  have hL : ∀ L : Nat, 0 < L → ((L : Int) = 0 ↔ False) := by
    intro L h
    simp
    omega
  refine ⟨?_, ?_, ?_, ?_⟩
  · intro payload L h
    simp only [variable_to_bytedata, set_string, hL L h, if_false, Int.toNat_ofNat]
    split
    · simp_all
    · simp_all
  · intro payload
    simp only [variable_to_bytedata, set_string, if_pos rfl, if_true]
    split
    · simp_all
    · simp_all
  · intro payload L h hlen
    simp only [variable_to_bytedata, set_string, hL L h, if_false, Int.toNat_ofNat]
    rw [if_neg (by omega)]
    exact ⟨_, rfl⟩
  · intro payload hlen
    simp only [variable_to_bytedata, set_string, if_pos rfl, if_true]
    rw [if_neg (by omega)]
    exact ⟨_, rfl⟩

/-- Witness for C6 at concrete inputs: a 3-byte payload against maximum 2
fails with StringTooLong, and a 2-byte payload at exactly maximum 2
encodes successfully. -/
theorem C6_string_length_check_witness :
    (variable_to_bytedata (.str [1, 2, 3]) .devString 2 =
        .error .stringTooLong ↔ 2 < 3) ∧
    (∃ d, variable_to_bytedata (.str [1, 2]) .devString 2 = .ok d) :=
  ⟨by
    have h := C6_string_length_check.1 [1, 2, 3] 2 (by decide)
    simpa using h,
   C6_string_length_check.2.2.1 [1, 2] 2 (by decide) rfl⟩

/-- C7: boolean encode and decode succeed at every bit index 0 through 7
and both fail with BitIndexOutOfRange at bit index 8 and at bit index
minus one. -/
theorem C7_bit_index_range :
    (∀ (b : Bool) (i : Int), 0 ≤ i → i ≤ 7 →
      (∃ d, variable_to_bytedata (.bool b) .devBoolean i = .ok d) ∧
      (∀ data : List Nat, ∃ r, bytedata_to_variable data .devBoolean 0 i = .ok r)) ∧
    (∀ b : Bool,
      variable_to_bytedata (.bool b) .devBoolean 8 = .error .bitIndexOutOfRange) ∧
    (∀ b : Bool,
      variable_to_bytedata (.bool b) .devBoolean (-1) = .error .bitIndexOutOfRange) ∧
    (∀ data : List Nat,
      bytedata_to_variable data .devBoolean 0 8 = .error .bitIndexOutOfRange) ∧
    (∀ data : List Nat,
      bytedata_to_variable data .devBoolean 0 (-1) = .error .bitIndexOutOfRange) := by
  refine ⟨?_, ?_, ?_, ?_, ?_⟩
  · intro b i h0 h7
    have h8 : i < 8 := by omega
    constructor
    · show ∃ d, set_bool [0] 0 i b = .ok d
      rw [set_bool, if_pos (And.intro h0 h8)]
      exact ⟨_, rfl⟩
    · intro data
      show ∃ r, (get_bool data 0 i).map PlcValue.bool = .ok r
      rw [get_bool, if_pos (And.intro h0 h8)]
      exact ⟨_, rfl⟩
  · intro b
    simp [variable_to_bytedata, set_bool]
  · intro b
    simp [variable_to_bytedata, set_bool]
  · intro data
    simp [bytedata_to_variable, get_bool, Except.map]
  · intro data
    simp [bytedata_to_variable, get_bool, Except.map]

/-- Witness for C7 at concrete inputs: encode and decode succeed at the
boundary bit index 7. -/
theorem C7_bit_index_range_witness :
    (∃ d, variable_to_bytedata (.bool true) .devBoolean 7 = .ok d) ∧
    (∃ r, bytedata_to_variable [0] .devBoolean 0 7 = .ok r) :=
  ⟨(C7_bit_index_range.1 true 7 (by decide) (by decide)).1,
   (C7_bit_index_range.1 true 7 (by decide) (by decide)).2 [0]⟩

/-- C2: decoding the bytes produced by encoding returns the original value
for every supported type and in-range value: any 32-bit signed integer,
a boolean at any bit index 0 through 7, a string payload no longer than
the declared maximum (254 when the qualifier is 0), and any representable
float value, here its 32-bit or 64-bit IEEE-754 pattern; the byte-level
round trip is exact, which implies the stated float tolerances. -/
theorem C2_encode_decode_roundtrip :
    (∀ bits : Nat, bits < 4294967296 →
      ∃ d, variable_to_bytedata (.real bits) .devFloat 0 = .ok d ∧
        bytedata_to_variable d .devFloat 0 0 = .ok (.real bits)) ∧
    (∀ bits : Nat, bits < 18446744073709551616 →
      ∃ d, variable_to_bytedata (.lreal bits) .devDouble 0 = .ok d ∧
        bytedata_to_variable d .devDouble 0 0 = .ok (.lreal bits)) ∧
    (∀ v : Int, -2147483648 ≤ v → v < 2147483648 →
      ∃ d, variable_to_bytedata (.dint v) .devLong 0 = .ok d ∧
        bytedata_to_variable d .devLong 0 0 = .ok (.dint v)) ∧
    (∀ (b : Bool) (i : Int), 0 ≤ i → i ≤ 7 →
      ∃ d, variable_to_bytedata (.bool b) .devBoolean i = .ok d ∧
        bytedata_to_variable d .devBoolean 0 i = .ok (.bool b)) ∧
    (∀ (payload : List Nat) (L : Nat),
      payload.length ≤ (if L = 0 then 254 else L) →
      ∃ d, variable_to_bytedata (.str payload) .devString (L : Int) = .ok d ∧
        bytedata_to_variable d .devString 0 (L : Int) = .ok (.str payload)) := by
  refine ⟨?_, ?_, ?_, ?_, ?_⟩
  · intro bits h
    refine ⟨u32Bytes bits, rfl, ?_⟩
    show Except.ok (PlcValue.real (get_real (u32Bytes bits) 0)) =
      Except.ok (PlcValue.real bits)
    rw [get_real, u32Read_u32Bytes bits h]
  · intro bits h
    refine ⟨u64Bytes bits, rfl, ?_⟩
    show Except.ok (PlcValue.lreal (get_lreal (u64Bytes bits) 0)) =
      Except.ok (PlcValue.lreal bits)
    rw [get_lreal, u64Read_u64Bytes bits h]
  · intro v hlo hhi
    refine ⟨set_dint v, rfl, ?_⟩
    show Except.ok (PlcValue.dint (get_dint (set_dint v) 0)) =
      Except.ok (PlcValue.dint v)
    have hmod : (0 : Int) ≤ v % 4294967296 ∧ v % 4294967296 < 4294967296 := by omega
    have hn : ((v % 4294967296).toNat : Int) = v % 4294967296 :=
      Int.toNat_of_nonneg hmod.1
    have hlt : (v % 4294967296).toNat < 4294967296 := by omega
    have hx : get_dint (set_dint v) 0 = v := by
      rw [set_dint, get_dint]
      simp only [u32Read_u32Bytes _ hlt]
      split
      · omega
      · omega
    rw [hx]
  · intro b i h0 h7
    have h8 : i < 8 := by omega
    have hi : i.toNat < 8 := by omega
    refine ⟨[0].set 0 (if b then [0].getD 0 0 ||| 2 ^ i.toNat
        else [0].getD 0 0 &&& (255 ^^^ 2 ^ i.toNat)), ?_, ?_⟩
    · show set_bool [0] 0 i b = _
      rw [set_bool, if_pos (And.intro h0 h8)]
    · show (get_bool _ 0 i).map PlcValue.bool = _
      rw [get_bool, if_pos (And.intro h0 h8)]
      cases b
      · simp only [Bool.false_eq_true, if_false, List.set, List.getD,
          List.get?_cons_zero, Option.getD_some, Except.map]
        rw [show ((0 : Nat) &&& (255 ^^^ 2 ^ i.toNat)).testBit i.toNat =
            (if false then (0 : Nat) ||| 2 ^ i.toNat
             else (0 : Nat) &&& (255 ^^^ 2 ^ i.toNat)).testBit i.toNat from rfl,
          merge_testBit 0 i.toNat i.toNat false hi hi, if_pos rfl]
      · simp only [if_true, List.set, List.getD,
          List.get?_cons_zero, Option.getD_some, Except.map]
        rw [show ((0 : Nat) ||| 2 ^ i.toNat).testBit i.toNat =
            (if true then (0 : Nat) ||| 2 ^ i.toNat
             else (0 : Nat) &&& (255 ^^^ 2 ^ i.toNat)).testBit i.toNat from rfl,
          merge_testBit 0 i.toNat i.toNat true hi hi, if_pos rfl]
  · intro payload L hlen
    have hcl : (if (L : Int) = 0 then 254 else (L : Int).toNat) =
        (if L = 0 then 254 else L) := by
      rcases Nat.eq_zero_or_pos L with h | h
      · simp [h]
      · rw [if_neg (by omega), if_neg (by omega), Int.toNat_ofNat]
    refine ⟨(if L = 0 then 254 else L) :: payload.length ::
        (payload ++ List.replicate ((if L = 0 then 254 else L) - payload.length) 0),
        ?_, ?_⟩
    · show set_string payload (if (L : Int) = 0 then 254 else (L : Int).toNat) =
        Except.ok ((if L = 0 then 254 else L) :: payload.length ::
          (payload ++ List.replicate ((if L = 0 then 254 else L) - payload.length) 0))
      rw [hcl, set_string, if_neg (by omega)]
    · show Except.ok (PlcValue.str (get_string ((if L = 0 then 254 else L) ::
          payload.length :: (payload ++
            List.replicate ((if L = 0 then 254 else L) - payload.length) 0)) 0)) =
        Except.ok (PlcValue.str payload)
      rw [get_string]
      simp only [List.drop, List.getD, List.get?_cons_zero, List.get?_cons_succ,
        Option.getD_some]
      rw [List.take_left' rfl]

/-- Witness for C2 at concrete inputs: the integer -5, the bit true at
index 7, and a 2-byte payload with maximum 4 all round-trip. -/
theorem C2_encode_decode_roundtrip_witness :
    (∃ d, variable_to_bytedata (.dint (-5)) .devLong 0 = .ok d ∧
      bytedata_to_variable d .devLong 0 0 = .ok (.dint (-5))) ∧
    (∃ d, variable_to_bytedata (.bool true) .devBoolean 7 = .ok d ∧
      bytedata_to_variable d .devBoolean 0 7 = .ok (.bool true)) ∧
    (∃ d, variable_to_bytedata (.str [72, 105]) .devString (4 : Nat) = .ok d ∧
      bytedata_to_variable d .devString 0 (4 : Nat) = .ok (.str [72, 105])) :=
  ⟨C2_encode_decode_roundtrip.2.2.1 (-5) (by decide) (by decide),
   C2_encode_decode_roundtrip.2.2.2.1 true 7 (by decide) (by decide),
   C2_encode_decode_roundtrip.2.2.2.2 [72, 105] 4 (by decide)⟩

/-- Lock-table entries survive any single protocol step. -/
theorem lockStep_table_mono (s : LockTableState) (e : LockEv) (p : Nat × Nat)
    (h : p ∈ s.table) : p ∈ (lockStep s e).table := by
  cases e with
  | testAbsent tid offset => exact h
  | insertLock tid offset =>
    simp only [lockStep]
    split
    · exact List.mem_cons_of_mem _ h
    · exact h

/-- Lock-table entries survive any run of protocol steps. -/
theorem lockFold_table_mono (evs : List LockEv) (s : LockTableState) (p : Nat × Nat)
    (h : p ∈ s.table) : p ∈ (evs.foldl lockStep s).table := by
  induction evs generalizing s with
  | nil => exact h
  | cons e t ih => exact ih (lockStep s e) (lockStep_table_mono s e p h)

/-- Offsets never targeted by any event acquire no lock-table entry. -/
theorem lockFold_untouched (evs : List LockEv) (s : LockTableState) (o : Nat)
    (hevs : ∀ e ∈ evs, e.offset ≠ o)
    (hs : ∀ id, (o, id) ∉ s.table) :
    ∀ id, (o, id) ∉ (evs.foldl lockStep s).table := by
  induction evs generalizing s with
  | nil => exact hs
  | cons e t ih =>
    refine ih (lockStep s e) (fun e2 he2 => hevs e2 (List.mem_cons_of_mem _ he2)) ?_
    intro id hmem
    cases e with
    | testAbsent tid offset => exact hs id hmem
    | insertLock tid offset =>
      have hoff : offset ≠ o := hevs _ (List.mem_cons_self _ _)
      simp only [lockStep] at hmem
      split at hmem
      · rcases List.mem_cons.mp hmem with h | h
        · exact hoff (congrArg Prod.fst h).symm
        · exact hs id h
      · exact hs id hmem

/-- C3 counterexample: the claim says locks are per (area, subarea, offset)
and that racing creators never produce duplicate lock objects.  The code
keys the table by offset alone, so the DataBlock register DB1.5.0 and the
Input register E.5.0 share one key; and because the membership test runs
before the creation lock is taken and the insert under it is unconditional,
the interleaving test(A), test(B), insert(A), insert(B) creates two lock
objects for offset 5. -/
theorem C3_lock_table_counterexample :
    get_register_parts "DB1.5.0" = .ok ⟨"DB", 1, 5, 0⟩ ∧
    get_register_parts "E.5.0" = .ok ⟨"E", 0, 5, 0⟩ ∧
    bit_byte_lock_key ⟨"DB", 1, 5, 0⟩ = bit_byte_lock_key ⟨"E", 0, 5, 0⟩ ∧
    (lockRun [.testAbsent 0 5, .testAbsent 1 5,
        .insertLock 0 5, .insertLock 1 5]).creations = [(5, 0), (5, 1)] :=
  ⟨rfl, rfl, rfl, rfl⟩

/-- C3 amended: the byte-lock table is keyed by byte offset alone, so two
registers with the same offset share one entry whatever their areas or
subareas; an entry appears only once a boolean write targets that offset
and entries are never removed; the insert happens under the global
creation lock, but the absence test precedes it, so racing creators can
duplicate lock objects (see the counterexample). -/
theorem C3_lock_table_keying :
    (∀ p1 p2 : RegisterParts, p1.offset = p2.offset →
      bit_byte_lock_key p1 = bit_byte_lock_key p2) ∧
    (∀ (evs extra : List LockEv) (p : Nat × Nat),
      p ∈ (lockRun evs).table → p ∈ (lockRun (evs ++ extra)).table) ∧
    (∀ (evs : List LockEv) (o : Nat),
      (∀ e ∈ evs, e.offset ≠ o) → ∀ id, (o, id) ∉ (lockRun evs).table) := by
  refine ⟨?_, ?_, ?_⟩
  · intro p1 p2 h
    exact h
  · intro evs extra p h
    rw [lockRun, List.foldl_append]
    exact lockFold_table_mono extra _ p h
  · intro evs o hevs
    exact lockFold_untouched evs _ o hevs (fun id h => by simp at h)

/-- Witness for C3 at concrete inputs: entries persist across further
events and an untouched offset has no entry. -/
theorem C3_lock_table_keying_witness :
    bit_byte_lock_key ⟨"DB", 1, 5, 0⟩ = bit_byte_lock_key ⟨"Q", 0, 5, 3⟩ ∧
    ((5, 0) ∈ (lockRun ([.testAbsent 0 5, .insertLock 0 5] ++
        [.testAbsent 1 9, .insertLock 1 9])).table) ∧
    ((9, 0) ∉ (lockRun [.testAbsent 0 5, .insertLock 0 5]).table) :=
  ⟨C3_lock_table_keying.1 ⟨"DB", 1, 5, 0⟩ ⟨"Q", 0, 5, 3⟩ rfl,
   C3_lock_table_keying.2.1 [.testAbsent 0 5, .insertLock 0 5]
     [.testAbsent 1 9, .insertLock 1 9] (5, 0) (by decide),
   C3_lock_table_keying.2.2 [.testAbsent 0 5, .insertLock 0 5] 9
     (by decide) 0⟩

theorem register_ok_grammar (s : String) (p : RegisterParts)
    (h : get_register_parts s = .ok p) : PyGrammarMatch s := by
  simp only [get_register_parts] at h
  split at h
  · exact absurd h (by simp)
  next hL =>
    split at h
    next r3 heq1 =>
      split at h
      next hOf => exact absurd h (by simp)
      next hOf =>
        have hls : s.data.takeWhile Char.isAlpha ≠ [] := by
          intro hnil
          exact hL (by rw [hnil]; rfl)
        have hoffs : r3.takeWhile isPyDigit ≠ [] := by
          intro hnil
          exact hOf (by rw [hnil]; rfl)
        have hdec : s.data = s.data.takeWhile Char.isAlpha ++
            ((s.data.dropWhile Char.isAlpha).takeWhile isPyDigit ++ ('.' :: r3)) := by
          rw [← heq1, List.takeWhile_append_dropWhile, List.takeWhile_append_dropWhile]
        split at h
        next r5 heq2 =>
          split at h
          next hg => exact absurd h (by simp)
          next hg =>
            rw [Bool.not_eq_true, Bool.or_eq_false_iff] at hg
            obtain ⟨hqE, hr6E⟩ := hg
            have hqs : r5.takeWhile isPyDigit ≠ [] := by
              intro hnil
              rw [hnil] at hqE
              exact absurd hqE (by simp)
            have hr6 : endAnchor (r5.dropWhile isPyDigit) = true := by
              cases hEa : endAnchor (r5.dropWhile isPyDigit) with
              | true => rfl
              | false =>
                rw [hEa] at hr6E
                exact absurd hr6E (by simp)
            refine ⟨s.data.takeWhile Char.isAlpha,
              (s.data.dropWhile Char.isAlpha).takeWhile isPyDigit,
              r3.takeWhile isPyDigit, some (r5.takeWhile isPyDigit),
              r5.dropWhile isPyDigit,
              hls, ?_, ?_, hoffs, ?_, ?_, hr6, ?_⟩
            · exact fun c hc => List.mem_takeWhile_imp hc
            · exact fun c hc => List.mem_takeWhile_imp hc
            · exact fun c hc => List.mem_takeWhile_imp hc
            · intro qs hqs2
              cases hqs2
              exact ⟨hqs, fun c hc => List.mem_takeWhile_imp hc⟩
            · have hr3 : r3 = r3.takeWhile isPyDigit ++
                  pyQualTail (some (r5.takeWhile isPyDigit)) (r5.dropWhile isPyDigit) := by
                show r3 = r3.takeWhile isPyDigit ++
                  ('.' :: (r5.takeWhile isPyDigit ++ r5.dropWhile isPyDigit))
                rw [List.takeWhile_append_dropWhile]
                conv_lhs => rw [← List.takeWhile_append_dropWhile (p := isPyDigit) (l := r3)]
                rw [heq2]
              conv_lhs => rw [hdec, hr3]
              rw [List.append_assoc]
        next himp =>
          split at h
          next hEnd =>
            refine ⟨s.data.takeWhile Char.isAlpha,
              (s.data.dropWhile Char.isAlpha).takeWhile isPyDigit,
              r3.takeWhile isPyDigit, none, r3.dropWhile isPyDigit,
              hls, ?_, ?_, hoffs, ?_, ?_, hEnd, ?_⟩
            · exact fun c hc => List.mem_takeWhile_imp hc
            · exact fun c hc => List.mem_takeWhile_imp hc
            · exact fun c hc => List.mem_takeWhile_imp hc
            · exact fun qs hqs => nomatch hqs
            · have hr3 : r3 = r3.takeWhile isPyDigit ++
                  pyQualTail none (r3.dropWhile isPyDigit) := by
                show r3 = r3.takeWhile isPyDigit ++ r3.dropWhile isPyDigit
                rw [List.takeWhile_append_dropWhile]
              conv_lhs => rw [hdec, hr3]
              rw [List.append_assoc]
          next hEnd => exact absurd h (by simp)
    next hne => exact absurd h (by simp)

theorem register_error_kind (s : String) (e : Err)
    (h : get_register_parts s = .error e) : e = .invalidRegisterFormat := by
  simp only [get_register_parts] at h
  repeat' split at h
  all_goals
    first
      | (injection h with h2; exact h2.symm)
      | injection h


theorem register_grammar_computes (ls ds offs : List Char) (q : Option (List Char))
    (t : List Char)
    (hls : ls ≠ []) (hlsA : ∀ c ∈ ls, c.isAlpha = true)
    (hds : ∀ c ∈ ds, isPyDigit c = true)
    (hoffs : offs ≠ []) (hoffsD : ∀ c ∈ offs, isPyDigit c = true)
    (hq : ∀ qs, q = some qs → qs ≠ [] ∧ ∀ c ∈ qs, isPyDigit c = true)
    (ht : endAnchor t = true) :
    get_register_parts ⟨ls ++ ds ++ '.' :: (offs ++ pyQualTail q t)⟩ =
      .ok ⟨⟨ls⟩, pyDigitsToNat ds, pyDigitsToNat offs, pyQualVal q⟩ := by
  have hlsE : ls.isEmpty = false := by
    cases ls with
    | nil => exact absurd rfl hls
    | cons a t2 => rfl
  have hoffsE : offs.isEmpty = false := by
    cases offs with
    | nil => exact absurd rfl hoffs
    | cons a t2 => rfl
  have hheadT : ∀ c : Char, t.head? = some c → isPyDigit c = false := by
    rcases endAnchor_cases ht with rfl | rfl
    · exact fun c hc => nomatch hc
    · intro c hc
      obtain rfl : '\n' = c := by simpa using hc
      decide
  have hheadRest : ∀ c : Char, (ds ++ '.' :: (offs ++ pyQualTail q t)).head? = some c →
      c.isAlpha = false := by
    intro c hc
    cases ds with
    | nil =>
      obtain rfl : '.' = c := by simpa using hc
      decide
    | cons d t2 =>
      obtain rfl : d = c := by simpa using hc
      exact isPyDigit_not_isAlpha (hds d (List.mem_cons_self _ _))
  have hA := takeWhile_append_all ls (ds ++ '.' :: (offs ++ pyQualTail q t)) hlsA hheadRest
  have hD := takeWhile_append_all ds ('.' :: (offs ++ pyQualTail q t)) hds
    (by
      intro c hc
      obtain rfl : '.' = c := by simpa using hc
      decide)
  have hO := takeWhile_append_all offs (pyQualTail q t) hoffsD
    (by
      intro c hc
      cases q with
      | none => exact hheadT c (by simpa [pyQualTail] using hc)
      | some qs =>
        obtain rfl : '.' = c := by simpa [pyQualTail] using hc
        decide)
  cases q with
  | none =>
    simp only [pyQualTail] at hO hheadRest hA hD ⊢
    rcases endAnchor_cases ht with rfl | rfl
    · simp only [get_register_parts, List.append_assoc, hA.1, hA.2, hD.1, hD.2,
        hO.1, hO.2, hlsE, hoffsE, pyQualVal, endAnchor,
        Bool.false_eq_true, if_false, List.isEmpty_nil, Bool.true_or, if_true]
    · simp only [get_register_parts, List.append_assoc, hA.1, hA.2, hD.1, hD.2,
        hO.1, hO.2, hlsE, hoffsE, pyQualVal, Bool.false_eq_true, if_false]
      rfl
  | some qs =>
    obtain ⟨hqsne, hqsD⟩ := hq qs rfl
    have hqsE : qs.isEmpty = false := by
      cases qs with
      | nil => exact absurd rfl hqsne
      | cons a t2 => rfl
    have hQ := takeWhile_append_all qs t hqsD hheadT
    simp only [pyQualTail] at hO hheadRest hA hD ⊢
    simp only [get_register_parts, List.append_assoc, hA.1, hA.2, hD.1, hD.2,
      hO.1, hO.2, hQ.1, hQ.2, hlsE, hoffsE, hqsE, ht, pyQualVal,
      Bool.false_eq_true, if_false, Bool.not_true, Bool.or_false]

/-- C9 counterexample: the claim says every string not matching the
grammar fails with InvalidRegisterFormat, but CPython's dollar anchor
also matches just before a trailing newline and its digit class covers
every Unicode decimal digit, so the source accepts "DB1.0\n" and
"DB٢.٣" (Arabic-Indic digits two and three), neither of which matches
the grammar as the specification words it. -/
theorem C9_register_grammar_counterexample :
    ¬ GrammarMatch "DB1.0\n" ∧
    get_register_parts "DB1.0\n" = .ok ⟨"DB", 1, 0, 0⟩ ∧
    ¬ GrammarMatch "DB٢.٣" ∧
    get_register_parts "DB٢.٣" = .ok ⟨"DB", 2, 3, 0⟩ := by
  refine ⟨?_, rfl, ?_, rfl⟩
  · intro hg
    obtain ⟨c, hc, hd⟩ := grammar_last_digit _ hg
    have he : "DB1.0\n".data.getLast? = some '\n' := rfl
    rw [he] at hc
    injection hc with hc2
    rw [← hc2] at hd
    exact absurd hd (by decide)
  · intro hg
    obtain ⟨c, hc, hd⟩ := grammar_last_digit _ hg
    have he : "DB٢.٣".data.getLast? = some '٣' := rfl
    rw [he] at hc
    injection hc with hc2
    rw [← hc2] at hd
    exact absurd hd (by decide)

/-- C9 amended: the parser accepts exactly the strings of the form
letters, optional digit group, dot, offset digits, optional dot-qualifier
group, followed by nothing or one trailing newline, where the digit
groups are Unicode decimal digits read at their decimal values (CPython
regex and int() semantics); subarea defaults to 0 when its group is
absent and qualifier to 0 when the second dot group is absent; every
other string fails with InvalidRegisterFormat; and the examples DB1.0.3,
E.5, A.20 parse to DataBlock subarea 1 offset 0 qualifier 3, Input
subarea 0 offset 5 qualifier 0, and Output offset 20. -/
theorem C9_register_parse :
    (∀ (ls ds offs : List Char) (q : Option (List Char)) (t : List Char),
      ls ≠ [] → (∀ c ∈ ls, c.isAlpha = true) → (∀ c ∈ ds, isPyDigit c = true) →
      offs ≠ [] → (∀ c ∈ offs, isPyDigit c = true) →
      (∀ qs, q = some qs → qs ≠ [] ∧ ∀ c ∈ qs, isPyDigit c = true) →
      endAnchor t = true →
      get_register_parts ⟨ls ++ ds ++ '.' :: (offs ++ pyQualTail q t)⟩ =
        .ok ⟨⟨ls⟩, pyDigitsToNat ds, pyDigitsToNat offs, pyQualVal q⟩) ∧
    (∀ s : String, ¬ PyGrammarMatch s →
      get_register_parts s = .error .invalidRegisterFormat) ∧
    get_register_parts "DB1.0.3" = .ok ⟨"DB", 1, 0, 3⟩ ∧
    read_area_kind "DB" = .ok .dataBlock ∧
    get_register_parts "E.5" = .ok ⟨"E", 0, 5, 0⟩ ∧
    read_area_kind "E" = .ok .inputArea ∧
    get_register_parts "A.20" = .ok ⟨"A", 0, 20, 0⟩ ∧
    read_area_kind "A" = .ok .outputArea ∧
    get_register_parts "invalid" = .error .invalidRegisterFormat := by
  refine ⟨register_grammar_computes, ?_, rfl, rfl, rfl, rfl, rfl, rfl, rfl⟩
  intro s hng
  cases hres : get_register_parts s with
  | ok p => exact absurd (register_ok_grammar s p hres) hng
  | error e =>
    rw [register_error_kind s e hres]

/-- Witness for C9 at concrete inputs: the decomposition D B, 1, dot, 0,
dot 3, trailing newline parses to area DB, subarea 1, offset 0,
qualifier 3. -/
theorem C9_register_parse_witness :
    get_register_parts
        ⟨['D', 'B'] ++ ['1'] ++ '.' :: (['0'] ++ pyQualTail (some ['3']) ['\n'])⟩ =
      .ok ⟨⟨['D', 'B']⟩, pyDigitsToNat ['1'], pyDigitsToNat ['0'],
        pyQualVal (some ['3'])⟩ :=
  C9_register_parse.1 ['D', 'B'] ['1'] ['0'] (some ['3']) ['\n']
    (by decide) (by decide) (by decide) (by decide) (by decide)
    (fun qs hqs => by
      cases hqs
      exact ⟨by decide, by decide⟩)
    (by decide)

end TangoSnap7
